import Mathlib

/-!
Verification of the trade-hedge hedge execution engine.

This file embeds the Go source of the repository into Lean 4:
float64 values are modelled as rational numbers (ℚ), `time.Time`
instants as natural numbers, strings as `String`, and fallible
external calls (exchange gateway, ledger) as `Option`-valued oracles
threaded through an explicit environment.  Every definition below is a
direct transcription of the corresponding Go function, keeping the
source's names and control-flow shape.
-/

namespace TradeHedge

attribute [local semireducible] Rat.mul Rat.add Rat.sub Rat.inv

deriving instance DecidableEq for Except

/-- Go's `int(x)` conversion on a float: truncation toward zero. -/
def goTrunc (x : ℚ) : ℤ :=
  if 0 ≤ x then ⌊x⌋ else ⌈x⌉

/-- Go's `math.Round(x)`: round to the nearest integer, ties away from zero. -/
def mathRound (x : ℚ) : ℤ :=
  if 0 ≤ x then ⌊x + 1/2⌋ else ⌈x - 1/2⌉

/-- `entities.OrderStatus` from `order_status.go`. -/
inductive OrderStatus where
  | pending
  | filled
  | partiallyFilled
  | cancelled
  | rejected
  | unknown
deriving DecidableEq, Repr

/-- `OrderStatus.IsCompleted` from `order_status.go`:
`s == Filled || s == Cancelled || s == Rejected`. -/
def OrderStatus.IsCompleted (s : OrderStatus) : Bool :=
  s == .filled || s == .cancelled || s == .rejected

/-- `OrderStatus.IsSuccessful` from `order_status.go`. -/
def OrderStatus.IsSuccessful (s : OrderStatus) : Bool :=
  s == .filled

/-- `OrderStatus.String` from `order_status.go`. -/
def OrderStatus.toGoString : OrderStatus → String
  | .pending => "PENDING"
  | .filled => "FILLED"
  | .partiallyFilled => "PARTIALLY_FILLED"
  | .cancelled => "CANCELLED"
  | .rejected => "REJECTED"
  | .unknown => "UNKNOWN"

/-- `entities.Trade` from `trade.go`. -/
structure Trade where
  ID : Int
  Pair : String
  IsOpen : Bool
  ProfitRatio : ℚ
  CurrentRate : ℚ
  OpenRate : ℚ
  Amount : ℚ
deriving DecidableEq, Repr

instance : Inhabited Trade :=
  ⟨{ ID := 0, Pair := "", IsOpen := false, ProfitRatio := 0,
     CurrentRate := 0, OpenRate := 0, Amount := 0 }⟩

/-- `Trade.ShouldBeHedged` from `trade.go`:
`threshold := -(maxLossPercent / 100); return t.ProfitRatio < threshold`. -/
def Trade.ShouldBeHedged (t : Trade) (maxLossPercent : ℚ) : Bool :=
  t.ProfitRatio < -(maxLossPercent / 100)

/-- In-place swap of two slice positions, as in
`trades[i], trades[j] = trades[j], trades[i]`. -/
def swapAt (l : List Trade) (i j : ℕ) : List Trade :=
  (l.set i (l.getD j default)).set j (l.getD i default)

/-- Inner loop of `SortTradesByDrawdown` (`for j := i + 1; j < len; j++`),
with an explicit fuel argument bounding the remaining iterations. -/
def sortInner : ℕ → List Trade → ℕ → ℕ → List Trade
  | 0, l, _, _ => l
  | fuel + 1, l, i, j =>
    if j < l.length then
      let l' := if (l.getD j default).ProfitRatio < (l.getD i default).ProfitRatio
        then swapAt l i j else l
      sortInner fuel l' i (j + 1)
    else l

/-- Outer loop of `SortTradesByDrawdown` (`for i := 0; i < len-1; i++`). -/
def sortOuter : ℕ → List Trade → ℕ → List Trade
  | 0, l, _ => l
  | fuel + 1, l, i =>
    if i < l.length - 1 then
      sortOuter fuel (sortInner l.length l i (i + 1)) (i + 1)
    else l

/-- `SortTradesByDrawdown` from `trade.go`: exchange sort by ascending
`ProfitRatio`, swapping whenever `trades[i].ProfitRatio > trades[j].ProfitRatio`. -/
def SortTradesByDrawdown (l : List Trade) : List Trade :=
  if l.length ≤ 1 then l else sortOuter l.length l 0

/-- Decimal re-rounding performed by `strconv.FormatFloat(p, 'f', prec, 64)`
followed by `strconv.ParseFloat`: the value is rounded to `prec` fractional
decimal digits.  (In `CalculateTakeProfitPrice` the argument is already an
exact multiple of `10^-prec`, so this step is the identity there.) -/
def formatParse (q : ℚ) (prec : ℕ) : ℚ :=
  (mathRound (q * 10 ^ prec) : ℚ) / 10 ^ prec

/-- `Trade.CalculateTakeProfitPrice` from `trade.go`. -/
def Trade.CalculateTakeProfitPrice (t : Trade) (profitRatio : ℚ) : ℚ :=
  let takeProfitPercent := t.ProfitRatio * (-100) * profitRatio
  let rawPrice := t.CurrentRate * (1 + takeProfitPercent / 100)
  let multiplier : ℚ := if t.CurrentRate < 1/10000 then 100000000 else 10000
  let roundedPrice := (goTrunc (rawPrice * multiplier + 1/2) : ℚ) / multiplier
  let precision : ℕ := if t.CurrentRate < 1/10000 then 8 else 4
  formatParse roundedPrice precision

/-- `entities.HedgedTrade` from `trade.go`. -/
structure HedgedTrade where
  FreqtradeTradeID : Int
  Pair : String
  HedgeTime : ℕ
  BybitOrderID : String
  FreqtradeOpenPrice : ℚ
  FreqtradeAmount : ℚ
  FreqtradeProfitRatio : ℚ
  HedgeOpenPrice : ℚ
  HedgeAmount : ℚ
  HedgeTakeProfitPrice : ℚ
  OrderStatus : OrderStatus
  LastStatusCheck : Option ℕ
  ClosePrice : Option ℚ
  CloseTime : Option ℕ
deriving DecidableEq, Repr

/-- `HedgedTrade.IsActive` from `trade.go`. -/
def HedgedTrade.IsActive (ht : HedgedTrade) : Bool :=
  !ht.OrderStatus.IsCompleted

/-- `HedgedTrade.CalculateProfit` from `trade.go`. -/
def HedgedTrade.CalculateProfit (ht : HedgedTrade) : Option ℚ :=
  match ht.ClosePrice with
  | none => none
  | some cp => some ((cp - ht.HedgeOpenPrice) * ht.HedgeAmount)

/-- `entities.OrderSide` from `order.go`. -/
inductive OrderSide where
  | buy
  | sell
deriving DecidableEq, Repr

/-- `entities.OrderType` from `order.go`. -/
inductive OrderType where
  | market
  | limit
deriving DecidableEq, Repr

/-- `entities.Order` from `order.go`; the Go field `Type` is renamed
`OrdType` because `Type` is reserved in Lean. -/
structure Order where
  Symbol : String
  Side : OrderSide
  OrdType : OrderType
  Quantity : ℚ
  Price : ℚ
deriving DecidableEq, Repr

/-- `entities.OrderResult` from `order.go`. -/
structure OrderResult where
  OrderID : String
  Success : Bool
  Error : String
deriving DecidableEq, Repr

/-- `NewMarketOrder` from `order.go`. -/
def NewMarketOrder (symbol : String) (side : OrderSide) (quantity : ℚ) : Order :=
  { Symbol := symbol, Side := side, OrdType := .market, Quantity := quantity, Price := 0 }

/-- `NewLimitOrder` from `order.go`. -/
def NewLimitOrder (symbol : String) (side : OrderSide) (quantity price : ℚ) : Order :=
  { Symbol := symbol, Side := side, OrdType := .limit, Quantity := quantity, Price := price }

/-- `CalculateQuantityFromAmount` from `order.go`. -/
def CalculateQuantityFromAmount (amount currentPrice : ℚ) : ℚ :=
  amount / currentPrice

/-- `entities.Balance` (domain entity). -/
structure Balance where
  Asset : String
  Available : ℚ
  Total : ℚ
deriving DecidableEq, Repr

/-- `Balance.HasSufficientBalance`: `b.Available >= requiredAmount`. -/
def Balance.HasSufficientBalance (b : Balance) (requiredAmount : ℚ) : Bool :=
  requiredAmount ≤ b.Available

/-- `services.OrderStatusInfo`. -/
structure OrderStatusInfo where
  OrderID : String
  Status : OrderStatus
  FilledPrice : Option ℚ
  FilledTime : Option ℕ
  FilledQty : ℚ
  RemainingQty : ℚ
deriving DecidableEq, Repr

/-- `services.InstrumentInfo`. -/
structure InstrumentInfo where
  Symbol : String
  BaseCoin : String
  QuoteCoin : String
  MinOrderQty : ℚ
  MinOrderAmt : ℚ
  MaxOrderQty : ℚ
  MaxOrderAmt : ℚ
  TickSize : ℚ
  StepSize : ℚ
  Status : String
deriving DecidableEq, Repr

instance : Inhabited InstrumentInfo :=
  ⟨{ Symbol := "", BaseCoin := "", QuoteCoin := "", MinOrderQty := 0, MinOrderAmt := 0,
     MaxOrderQty := 0, MaxOrderAmt := 0, TickSize := 0, StepSize := 0, Status := "" }⟩

/-- `errors.ErrorType` from the strategy error package. -/
inductive ErrorType where
  | noTrades
  | noLossyTrades
  | insufficientBalance
  | insufficientBalanceForMinLimit
  | exchangeError
deriving DecidableEq, Repr

/-- `StrategyError.IsExpected`: expected (non-critical) error types. -/
def ErrorType.IsExpected (t : ErrorType) : Bool :=
  t == .noTrades || t == .noLossyTrades || t == .insufficientBalanceForMinLimit

/-- Tags for the `fmt.Errorf` sites inside `hedgeTrade`; the formatted
messages are elided, only the site identity is kept. -/
inductive GenericErr where
  | balanceFetch
  | emptySymbol
  | nonPositiveQty
  | nonPositivePrice
  | buyPlaceFailed
  | buyUnsuccessful
  | buyCompletedUnsuccessfully (st : OrderStatus)
  | fillTimeout
  | zeroFilled
  | insufficientBaseForSell
  | sellQtyNonPositive
  | sellPriceNonPositive
  | sellPlaceFailed
  | sellUnsuccessful
  | saveFailed
deriving DecidableEq, Repr

/-- A Go `error` returned by `hedgeTrade`: either a typed `*errors.StrategyError`
(whose `Type` field drives control flow in `findAndHedgeTrade`) or a generic
wrapped error. -/
inductive HedgeError where
  | strategy (t : ErrorType)
  | generic (g : GenericErr)
deriving DecidableEq, Repr

/-- Result of one `hedgeTrade` call: normal return of the saved record,
an error return, or a run-time nil-pointer crash. -/
inductive HedgeOutcome where
  | ok (rec : HedgedTrade)
  | err (e : HedgeError)
  | nilStatusCrash
  | nilSellCrash
deriving DecidableEq, Repr

/-- Intermediate result of a phase that can also crash. -/
inductive Step (α : Type) where
  | ok (a : α)
  | err (e : HedgeError)
  | crash
deriving DecidableEq, Repr

/-- One environment for a single `hedgeTrade` call: each field is the
result the external collaborator would return, `none` meaning an error
from the call.  Poll and sell-attempt results are indexed by the 1-based
attempt number. -/
structure ExchangeEnv where
  balance : Option Balance
  instrument : Option InstrumentInfo
  buyResult : Option OrderResult
  polls : ℕ → Option OrderStatusInfo
  baseBalance : Option Balance
  sellResults : ℕ → Option OrderResult
  saveOk : Bool
  now : ℕ

/-- `HedgeStrategyConfig` from `hedge_strategy.go`. -/
structure HedgeStrategyConfig where
  PositionAmount : ℚ
  MaxLossPercent : ℚ
  ProfitRatio : ℚ
  BaseCurrency : String
  RetryAttempts : ℕ
  RetryDelay : ℕ

/-- Steps 1 of `hedgeTrade` (balance check) and the sizing block
(quantity, instrument constraints, minimum checks), lines 169-249. -/
def sizing (cfg : HedgeStrategyConfig) (env : ExchangeEnv) (trade : Trade) :
    Except HedgeError (ℚ × InstrumentInfo) :=
  match env.balance with
  | none => .error (.generic .balanceFetch)
  | some balance =>
    let requiredAmount := cfg.PositionAmount * (101/100)
    if balance.HasSufficientBalance requiredAmount = false then
      .error (.strategy .insufficientBalance)
    else
      let adjustedPositionAmount := cfg.PositionAmount
      let orderQuantity0 := CalculateQuantityFromAmount adjustedPositionAmount trade.CurrentRate
      let instrumentInfo := match env.instrument with
        | none => { (default : InstrumentInfo) with MinOrderAmt := 100 }
        | some ii => ii
      let minOrderValue := if instrumentInfo.MinOrderAmt ≤ 0 then 100 else instrumentInfo.MinOrderAmt
      let minOrderQty := if instrumentInfo.MinOrderQty ≤ 0 then 1/1000 else instrumentInfo.MinOrderQty
      let stepSize := instrumentInfo.StepSize
      let orderQuantity := if 0 < stepSize
        then (mathRound (orderQuantity0 / stepSize) : ℚ) * stepSize
        else orderQuantity0
      let orderValue := adjustedPositionAmount
      if orderValue < minOrderValue then
        .error (.strategy .insufficientBalanceForMinLimit)
      else if orderQuantity < minOrderQty then
        .error (.strategy .insufficientBalanceForMinLimit)
      else
        .ok (orderQuantity, instrumentInfo)

/-- Limit buy price computation from `hedgeTrade` (lines 264-293):
`currentRate * 1.001`, rounded to the tick grid when a positive tick size
is defined, substituting the unrounded buffered price when the rounded
value is non-positive or below `0.0001`. -/
def buyLimitPrice (currentRate tickSize : ℚ) : ℚ :=
  let limitPrice0 := currentRate * (1001/1000)
  let limitPrice := if 0 < tickSize
    then (mathRound (limitPrice0 / tickSize) : ℚ) * tickSize
    else limitPrice0
  if limitPrice ≤ 0 ∨ limitPrice < 1/10000 then currentRate * (1001/1000) else limitPrice

/-- Step 2 of `hedgeTrade`: build and validate the limit buy order, then
place it (lines 264-318). -/
def buyPhase (env : ExchangeEnv) (symbol : String) (orderQuantity currentRate tickSize : ℚ) :
    Except HedgeError OrderResult :=
  let buyOrder := NewLimitOrder symbol .buy orderQuantity (buyLimitPrice currentRate tickSize)
  if symbol = "" then .error (.generic .emptySymbol)
  else if buyOrder.Quantity ≤ 0 then .error (.generic .nonPositiveQty)
  else if buyOrder.OrdType = .limit ∧ buyOrder.Price ≤ 0 then .error (.generic .nonPositivePrice)
  else match env.buyResult with
    | none => .error (.generic .buyPlaceFailed)
    | some r => if r.Success = false then .error (.generic .buyUnsuccessful) else .ok r

/-- `maxWaitAttempts := 30` from `hedgeTrade`. -/
def maxWaitAttempts : ℕ := 30

/-- Outcome of the wait-for-fill loop of `hedgeTrade` (lines 327-350). -/
inductive WaitOutcome where
  | broke (s : OrderStatusInfo)
  | completedBad (st : OrderStatus)
  | timedOut
  | loopExit (last : Option OrderStatusInfo)
deriving DecidableEq, Repr

/-- Body of the wait-for-fill loop.  `fuel` is the number of remaining
iterations (`31 - attempt`); `cur` is the current value of the
`buyOrderStatus` variable, which the multiple assignment
`buyOrderStatus, err = GetOrderStatus(...)` overwrites with `nil` on a
failed poll. -/
def waitFill (polls : ℕ → Option OrderStatusInfo) :
    ℕ → ℕ → Option OrderStatusInfo → WaitOutcome
  | 0, _, cur => .loopExit cur
  | fuel + 1, attempt, _cur =>
    match polls attempt with
    | none => waitFill polls fuel (attempt + 1) none
    | some s =>
      if s.Status = .filled then .broke s
      else if s.Status.IsCompleted ∧ s.Status ≠ .filled then .completedBad s.Status
      else if attempt = maxWaitAttempts then .timedOut
      else waitFill polls fuel (attempt + 1) (some s)

/-- Step 3 of `hedgeTrade`: the full wait-for-fill loop,
30 attempts at 1-second spacing starting from attempt 1. -/
def waitForFill (polls : ℕ → Option OrderStatusInfo) : WaitOutcome :=
  waitFill polls maxWaitAttempts 1 none

/-- Post-loop dispatch: the loop's `return` statements become errors, a
normal loop exit with `buyOrderStatus == nil` is the nil dereference at
the subsequent `buyOrderStatus.FilledQty` read. -/
def waitPhase : WaitOutcome → Step OrderStatusInfo
  | .broke s => .ok s
  | .completedBad st => .err (.generic (.buyCompletedUnsuccessfully st))
  | .timedOut => .err (.generic .fillTimeout)
  | .loopExit none => .crash
  | .loopExit (some s) => .ok s

/-- Step 4 of `hedgeTrade` (lines 352-392): reject a zero fill, then clamp
the sell quantity to the available base-currency balance (when that
balance could be fetched), failing when the clamped quantity is zero. -/
def clampPhase (baseBalance : Option Balance) (actualQuantity : ℚ) : Except HedgeError ℚ :=
  if actualQuantity ≤ 0 then .error (.generic .zeroFilled)
  else match baseBalance with
    | none => .ok actualQuantity
    | some bb =>
      if bb.Available < actualQuantity then
        if bb.Available ≤ 0 then .error (.generic .insufficientBaseForSell)
        else .ok bb.Available
      else .ok actualQuantity

/-- Step 5 of `hedgeTrade` (lines 394-415): entity take-profit price, tick
rounding when a positive tick size is defined, and the non-positive
fallback `currentRate * 1.001`. -/
def takeProfitPipeline (trade : Trade) (profitRatioConfig tickSize : ℚ) : ℚ :=
  let p0 := trade.CalculateTakeProfitPrice profitRatioConfig
  let p1 := if 0 < tickSize then (mathRound (p0 / tickSize) : ℚ) * tickSize else p0
  if p1 ≤ 0 then trade.CurrentRate * (1001/1000) else p1

/-- Sell retry loop of `hedgeTrade` (lines 437-463).  `fuel` is the number
of remaining iterations (`maxRetries - attempt + 1`); exhausting the loop
without a break leaves `sellResult == nil`, a crash at the subsequent
`sellResult.OrderID` read. -/
def sellLoop (res : ℕ → Option OrderResult) (maxRetries : ℕ) :
    ℕ → ℕ → Step OrderResult
  | 0, _ => .crash
  | fuel + 1, attempt =>
    match res attempt with
    | none =>
      if attempt < maxRetries then sellLoop res maxRetries fuel (attempt + 1)
      else .err (.generic .sellPlaceFailed)
    | some r =>
      if r.Success then .ok r
      else if attempt < maxRetries then sellLoop res maxRetries fuel (attempt + 1)
      else .err (.generic .sellUnsuccessful)

/-- Step 7 of `hedgeTrade` (lines 466-488): the `HedgedTrade` record built
after a successful sell placement. -/
def mkHedgedTrade (trade : Trade) (now : ℕ) (sellOrderID : String)
    (actualQuantity takeProfitPrice : ℚ) : HedgedTrade :=
  { FreqtradeTradeID := trade.ID
    Pair := trade.Pair
    HedgeTime := now
    BybitOrderID := sellOrderID
    FreqtradeOpenPrice := trade.OpenRate
    FreqtradeAmount := trade.Amount
    FreqtradeProfitRatio := trade.ProfitRatio
    HedgeOpenPrice := trade.CurrentRate
    HedgeAmount := actualQuantity
    HedgeTakeProfitPrice := takeProfitPrice
    OrderStatus := .pending
    LastStatusCheck := some now
    ClosePrice := none
    CloseTime := none }

/-- `TradingPair.ToBybitFormat` from `pair.go`:
`strings.ReplaceAll(value, "/", "")`, i.e. drop every slash. -/
def toBybitFormat (pair : String) : String :=
  String.mk (pair.data.filter (fun c => c ≠ '/'))

/-- `hedgeTrade` from `hedge_strategy.go` (lines 165-495), composed from
the phase functions above in source order. -/
def hedgeTrade (cfg : HedgeStrategyConfig) (env : ExchangeEnv) (trade : Trade) : HedgeOutcome :=
  let symbol := toBybitFormat trade.Pair
  match sizing cfg env trade with
  | .error e => .err e
  | .ok (orderQuantity, instrumentInfo) =>
    match buyPhase env symbol orderQuantity trade.CurrentRate instrumentInfo.TickSize with
    | .error e => .err e
    | .ok _buyResult =>
      match waitPhase (waitForFill env.polls) with
      | .crash => .nilStatusCrash
      | .err e => .err e
      | .ok buyOrderStatus =>
        match clampPhase env.baseBalance buyOrderStatus.FilledQty with
        | .error e => .err e
        | .ok actualQuantity =>
          let takeProfitPrice := takeProfitPipeline trade cfg.ProfitRatio instrumentInfo.TickSize
          let sellOrder := NewLimitOrder symbol .sell actualQuantity takeProfitPrice
          if sellOrder.Quantity ≤ 0 then .err (.generic .sellQtyNonPositive)
          else if sellOrder.Price ≤ 0 then .err (.generic .sellPriceNonPositive)
          else
            match sellLoop env.sellResults cfg.RetryAttempts cfg.RetryAttempts 1 with
            | .crash => .nilSellCrash
            | .err e => .err e
            | .ok sellResult =>
              if env.saveOk then .ok (mkHedgedTrade trade env.now sellResult.OrderID
                actualQuantity takeProfitPrice)
              else .err (.generic .saveFailed)

/-- Result of one `findAndHedgeTrade` pass. -/
inductive PassOutcome where
  | ok
  | err (e : HedgeError)
  | crash
deriving DecidableEq, Repr

/-- Candidate loop of `findAndHedgeTrade` (lines 114-161).  `f` gives the
outcome of `hedgeTrade` for each trade; `lastError` mirrors the Go
variable.  Besides the Go return value, the model also returns the list
of trades on which `hedgeTrade` was actually invoked, in order. -/
def findLoop (maxLossPercent : ℚ) (f : Trade → HedgeOutcome) :
    List Trade → Option HedgeError → PassOutcome × List Trade
  | [], lastError =>
    (match lastError with
     | some e => .err e
     | none => .err (.strategy .noLossyTrades), [])
  | t :: rest, lastError =>
    if t.ShouldBeHedged maxLossPercent = false then
      findLoop maxLossPercent f rest lastError
    else
      match f t with
      | .ok _ => (.ok, [t])
      | .err e =>
        match e with
        | .strategy .insufficientBalanceForMinLimit =>
          let r := findLoop maxLossPercent f rest (some e)
          (r.1, t :: r.2)
        | _ => (.err e, [t])
      | .nilStatusCrash => (.crash, [t])
      | .nilSellCrash => (.crash, [t])

/-- `findAndHedgeTrade` from `hedge_strategy.go`, entered with
`lastError = nil`. -/
def findAndHedgeTrade (maxLossPercent : ℚ) (f : Trade → HedgeOutcome)
    (trades : List Trade) : PassOutcome × List Trade :=
  findLoop maxLossPercent f trades none

/-- Candidate sequence considered for execution by a hedge pass:
`ExecuteHedgeStrategy` sorts the unhedged trades by drawdown, and
`findAndHedgeTrade` skips (without a hedge attempt) every trade whose
drawdown does not exceed the threshold. -/
def consideredCandidates (maxLossPercent : ℚ) (trades : List Trade) : List Trade :=
  (SortTradesByDrawdown trades).filter (fun t => t.ShouldBeHedged maxLossPercent)

/-- Modelled from the spec: the PostgreSQL implementation of
`GetHedgedTrades` is not under `src/`; the `HedgeRepository` interface
documents it as returning all records when `status` is nil and only
the records carrying exactly that status otherwise. -/
def GetHedgedTrades (ledger : List HedgedTrade) (statusFilter : Option String) :
    List HedgedTrade :=
  match statusFilter with
  | none => ledger
  | some st => ledger.filter (fun t => t.OrderStatus.toGoString = st)

/-- Environment of one reconciliation pass: venue order status keyed by
order id (`none` = fetch error), per-order-id ledger-update success, and
the current time used for unsuccessful terminal closes. -/
structure CheckEnv where
  statusOf : String → Option OrderStatusInfo
  updateOk : String → Bool
  now : ℕ

/-- Argument tuple of one `UpdateHedgedTradeStatus` call. -/
structure UpdateArgs where
  orderID : String
  status : OrderStatus
  closePrice : Option ℚ
  closeTime : Option ℕ
deriving DecidableEq, Repr

/-- `checkSingleOrderStatus` from the status-checker use case: fetch the
venue status of the record's order; on an unchanged status issue a
touch update with the record's own close fields; on a changed status
compute close fields (fill price/time for FILLED, a close time only for
an unsuccessful terminal status, nothing otherwise) and update.  The
result is the issued update call (if any) together with the Go return
value `(updated, error)`. -/
def checkSingleOrderStatus (env : CheckEnv) (t : HedgedTrade) :
    Option UpdateArgs × Except Unit Bool :=
  match env.statusOf t.BybitOrderID with
  | none => (none, .error ())
  | some statusInfo =>
    if statusInfo.Status = t.OrderStatus then
      let args : UpdateArgs :=
        { orderID := t.BybitOrderID, status := t.OrderStatus,
          closePrice := t.ClosePrice, closeTime := t.CloseTime }
      (some args, if env.updateOk t.BybitOrderID then .ok false else .error ())
    else
      let cp : Option ℚ :=
        if statusInfo.Status = .filled then statusInfo.FilledPrice
        else none
      let ct : Option ℕ :=
        if statusInfo.Status = .filled then statusInfo.FilledTime
        else if statusInfo.Status.IsCompleted then some env.now
        else none
      let args : UpdateArgs :=
        { orderID := t.BybitOrderID, status := statusInfo.Status,
          closePrice := cp, closeTime := ct }
      (some args, if env.updateOk t.BybitOrderID then .ok true else .error ())

/-- `CheckAllActiveOrders` from the status-checker use case: fetch the
records with status `"PENDING"`, then process each one with
`checkSingleOrderStatus`, logging and skipping per-record errors.  The
model returns the list of records processed (each paired with its
processing result) and the count of records whose status changed. -/
def CheckAllActiveOrders (env : CheckEnv) (ledger : List HedgedTrade) :
    List (HedgedTrade × (Option UpdateArgs × Except Unit Bool)) × ℕ :=
  let activeTrades := GetHedgedTrades ledger (some "PENDING")
  let processed := activeTrades.map (fun t => (t, checkSingleOrderStatus env t))
  (processed, processed.countP (fun r => match r.2.2 with | .ok b => b | .error _ => false))

/-- Lifecycle rank of a status: `PENDING` is the initial state, a
partial fill or an unknown report is intermediate, and the completed
statuses are terminal. -/
def statusRank : OrderStatus → ℕ
  | .pending => 0
  | .partiallyFilled => 1
  | .unknown => 1
  | .filled => 2
  | .cancelled => 2
  | .rejected => 2

/-- Whether a `hedgeTrade` outcome is a success. -/
def HedgeOutcome.isOk : HedgeOutcome → Bool
  | .ok _ => true
  | _ => false

/-! Concrete objects used by counterexamples and witnesses. -/

/-- A losing trade with a 2 percent drawdown (first of a tied pair). -/
def c1t1 : Trade :=
  { ID := 1, Pair := "AAA/USDT", IsOpen := true, ProfitRatio := -2/100,
    CurrentRate := 1, OpenRate := 1, Amount := 1 }

/-- A second losing trade with the same 2 percent drawdown as `c1t1`. -/
def c1t2 : Trade :=
  { c1t1 with ID := 2, Pair := "BBB/USDT" }

/-- A losing trade with a deeper, 5 percent drawdown. -/
def c1t3 : Trade :=
  { c1t1 with ID := 3, Pair := "CCC/USDT", ProfitRatio := -5/100 }

/-- A hedger for which every attempt fails with the skippable
minimum-limit error. -/
def skipAllHedger : Trade → HedgeOutcome :=
  fun _ => .err (.strategy .insufficientBalanceForMinLimit)

/-- A status snapshot reporting a still-pending order. -/
def pendingSnap : OrderStatusInfo :=
  { OrderID := "BUY1", Status := .pending, FilledPrice := none, FilledTime := none,
    FilledQty := 0, RemainingQty := 1/500 }

/-- A terminal snapshot reporting a partial fill: status FILLED with only
three quarters of the requested `0.002` quantity executed. -/
def partialFillSnap : OrderStatusInfo :=
  { OrderID := "BUY1", Status := .filled, FilledPrice := some 50050,
    FilledTime := some 1700000050, FilledQty := 3/2000, RemainingQty := 1/2000 }

/-- Polls that return a pending snapshot for the first 29 attempts and an
error on the 30th. -/
def pollsPendingThenErr : ℕ → Option OrderStatusInfo :=
  fun a => if a ≤ 29 then some pendingSnap else none

/-- Spec scenario trade: BTC/USDT with a 6 percent drawdown at rate 50000. -/
def scenarioTrade : Trade :=
  { ID := 1, Pair := "BTC/USDT", IsOpen := true, ProfitRatio := -6/100,
    CurrentRate := 50000, OpenRate := 53000, Amount := 1/100 }

/-- Spec scenario configuration: fixed notional 100, threshold 3 percent,
profit-capture ratio 0.7, three sell attempts. -/
def scenarioCfg : HedgeStrategyConfig :=
  { PositionAmount := 100, MaxLossPercent := 3, ProfitRatio := 7/10,
    BaseCurrency := "USDT", RetryAttempts := 3, RetryDelay := 2 }

/-- Instrument constraints for the scenario symbol. -/
def scenarioInfo : InstrumentInfo :=
  { Symbol := "BTCUSDT", BaseCoin := "BTC", QuoteCoin := "USDT",
    MinOrderQty := 1/10000, MinOrderAmt := 5, MaxOrderQty := 100, MaxOrderAmt := 1000000,
    TickSize := 1/100, StepSize := 1/1000000, Status := "Trading" }

/-- Environment for a fully successful hedge attempt: ample balance, a
successful buy placement, a first poll reporting the partial terminal
fill, a base-balance fetch error (logged and ignored), a sell placement
that succeeds on the first attempt, and a successful ledger write. -/
def happyEnv : ExchangeEnv :=
  { balance := some { Asset := "USDT", Available := 1000, Total := 1000 }
    instrument := some scenarioInfo
    buyResult := some { OrderID := "BUY1", Success := true, Error := "" }
    polls := fun _ => some partialFillSnap
    baseBalance := none
    sellResults := fun _ => some { OrderID := "SELL1", Success := true, Error := "" }
    saveOk := true
    now := 1700000100 }

/-- The record persisted by the successful scenario hedge: sell order id
`SELL1`, the decision-time market price 50000 as hedge open price, the
partially filled quantity `0.0015`, and take-profit price 52100. -/
def scenarioRec : HedgedTrade :=
  mkHedgedTrade scenarioTrade 1700000100 "SELL1" (3/2000) 52100

/-- Environment in which every one of the 30 status polls fails. -/
def allPollsFailEnv : ExchangeEnv :=
  { happyEnv with polls := fun _ => none }

/-- Environment in which the 30th and last status poll fails after 29
pending reports. -/
def lastPollFailEnv : ExchangeEnv :=
  { happyEnv with polls := pollsPendingThenErr }

/-- Environment with ample balance but a venue minimum order notional of 5. -/
def minLimitEnv : ExchangeEnv :=
  { happyEnv with instrument := some { scenarioInfo with MinOrderAmt := 5 } }

/-- Configuration sizing a notional of 3 units, below the venue minimum of 5. -/
def smallAmountCfg : HedgeStrategyConfig :=
  { scenarioCfg with PositionAmount := 3 }

/-- Environment whose available base-currency balance (2) is below the
required notional with slippage buffer. -/
def poorBalanceEnv : ExchangeEnv :=
  { happyEnv with balance := some { Asset := "USDT", Available := 2, Total := 2 } }

/-- Trade from the take-profit precision example with a very low price:
`currentPrice = 0.00003`, `profitRatio = -0.05`. -/
def tinyPriceTrade : Trade :=
  { ID := 4, Pair := "SHIB/USDT", IsOpen := true, ProfitRatio := -5/100,
    CurrentRate := 3/100000, OpenRate := 4/100000, Amount := 1000000 }

/-- Trade from the take-profit precision example with a high price:
`currentPrice = 50000`, `profitRatio = -0.05`. -/
def highPriceTrade : Trade :=
  { ID := 5, Pair := "BTC/USDT", IsOpen := true, ProfitRatio := -5/100,
    CurrentRate := 50000, OpenRate := 53000, Amount := 1/100 }

/-- A ledger record whose status is the non-terminal `PARTIALLY_FILLED`. -/
def partialRec : HedgedTrade :=
  { FreqtradeTradeID := 9, Pair := "XRP/USDT", HedgeTime := 1700000000,
    BybitOrderID := "SELL9", FreqtradeOpenPrice := 1, FreqtradeAmount := 100,
    FreqtradeProfitRatio := -4/100, HedgeOpenPrice := 9/10, HedgeAmount := 100,
    HedgeTakeProfitPrice := 1, OrderStatus := .partiallyFilled,
    LastStatusCheck := some 1700000050, ClosePrice := none, CloseTime := none }

/-- A ledger record with status `PENDING`, as created by `hedgeTrade`. -/
def pendingRec : HedgedTrade :=
  { partialRec with
    FreqtradeTradeID := 10,
    BybitOrderID := "SELL10",
    OrderStatus := .pending }

/-- A reconciliation environment that fails every status fetch. -/
def failAllCheckEnv : CheckEnv :=
  { statusOf := fun _ => none, updateOk := fun _ => true, now := 1700000200 }

/-- A venue snapshot that still reports PENDING for the sell order. -/
def touchSnap : OrderStatusInfo :=
  { OrderID := "SELL10", Status := .pending, FilledPrice := none,
    FilledTime := none, FilledQty := 0, RemainingQty := 1 }

/-- A reconciliation environment whose venue still reports PENDING for
every order (unchanged status: touch path). -/
def touchCheckEnv : CheckEnv :=
  { statusOf := fun _ => some touchSnap, updateOk := fun _ => true, now := 1700000300 }

/-- A venue snapshot reporting the sell order FILLED at price 52100. -/
def sellFilledSnap : OrderStatusInfo :=
  { OrderID := "SELL10", Status := .filled, FilledPrice := some 52100,
    FilledTime := some 1700000400, FilledQty := 3/2000, RemainingQty := 0 }

/-- A reconciliation environment whose venue reports a FILLED sell order
at price 52100. -/
def filledCheckEnv : CheckEnv :=
  { statusOf := fun _ => some sellFilledSnap, updateOk := fun _ => true, now := 1700000500 }

/-! Correctness of the exchange sort `SortTradesByDrawdown`. -/

/-- Key by which `SortTradesByDrawdown` orders: the `ProfitRatio` at a
given index (with the default trade beyond the end). -/
def key (l : List Trade) (m : ℕ) : ℚ :=
  (l.getD m default).ProfitRatio

theorem getD_set_self {α : Type} (l : List α) (i : ℕ) (a d : α) (h : i < l.length) :
    (l.set i a).getD i d = a := by
  simp [List.getD_eq_getElem?_getD, List.getElem?_set_self h]

theorem getD_set_ne {α : Type} (l : List α) {i j : ℕ} (hij : i ≠ j) (a d : α) :
    (l.set i a).getD j d = l.getD j d := by
  simp [List.getD_eq_getElem?_getD, List.getElem?_set_ne hij]

theorem length_swapAt (l : List Trade) (i j : ℕ) :
    (swapAt l i j).length = l.length := by
  simp [swapAt]

theorem getD_swapAt_left (l : List Trade) {i j : ℕ} (hij : i ≠ j) (h : i < l.length) :
    (swapAt l i j).getD i default = l.getD j default := by
  unfold swapAt
  rw [getD_set_ne _ (fun hji => hij hji.symm), getD_set_self _ _ _ _ h]

theorem getD_swapAt_right (l : List Trade) {i j : ℕ} (h : j < l.length) :
    (swapAt l i j).getD j default = l.getD i default := by
  unfold swapAt
  rw [getD_set_self]
  simpa using h

theorem getD_swapAt_other (l : List Trade) {i j m : ℕ} (hmi : m ≠ i) (hmj : m ≠ j) :
    (swapAt l i j).getD m default = l.getD m default := by
  unfold swapAt
  rw [getD_set_ne _ (fun h => hmj h.symm), getD_set_ne _ (fun h => hmi h.symm)]

theorem getD_cons_swap_set (t : List Trade) :
    ∀ (k : ℕ) (a : Trade), k < t.length →
      List.Perm ((t.getD k default) :: t.set k a) (a :: t) := by
  induction t with
  | nil => intro k a h; simp at h
  | cons b t ih =>
    intro k a h
    match k with
    | 0 => simpa using List.Perm.swap a b t
    | k + 1 =>
      have hk : k < t.length := by simpa using h
      have step := ih k a hk
      have e : ((b :: t).getD (k+1) default) :: (b :: t).set (k+1) a
          = t.getD k default :: b :: t.set k a := by simp
      rw [e]
      have p1 : List.Perm (t.getD k default :: b :: t.set k a)
          (b :: t.getD k default :: t.set k a) := List.Perm.swap b _ _
      have p2 : List.Perm (b :: t.getD k default :: t.set k a) (b :: a :: t) :=
        List.Perm.cons b step
      have p3 : List.Perm (b :: a :: t) (a :: b :: t) := List.Perm.swap a b t
      exact (p1.trans p2).trans p3

theorem swapAt_perm : ∀ (l : List Trade) (i j : ℕ), i < j → j < l.length →
    List.Perm (swapAt l i j) l := by
  intro l
  induction l with
  | nil => intro i j _ hj; simp at hj
  | cons a t ih =>
    intro i j hij hj
    match i, j with
    | 0, k + 1 =>
      have hk : k < t.length := by simpa using hj
      have e : swapAt (a :: t) 0 (k + 1) = t.getD k default :: t.set k a := by
        simp [swapAt]
      rw [e]
      exact getD_cons_swap_set t k a hk
    | i + 1, j + 1 =>
      have hij2 : i < j := Nat.lt_of_succ_lt_succ hij
      have hj2 : j < t.length := by simpa using hj
      have e : swapAt (a :: t) (i + 1) (j + 1) = a :: swapAt t i j := by
        simp [swapAt]
      rw [e]
      exact List.Perm.cons a (ih i j hij2 hj2)

theorem sortInner_perm : ∀ (fuel : ℕ) (l : List Trade) (i j : ℕ), i < j →
    List.Perm (sortInner fuel l i j) l := by
  intro fuel
  induction fuel with
  | zero => intro l i j _; exact List.Perm.refl l
  | succ fuel ih =>
    intro l i j hij
    unfold sortInner
    by_cases hj : j < l.length
    · simp only [if_pos hj]
      by_cases hc : (l.getD j default).ProfitRatio < (l.getD i default).ProfitRatio
      · simp only [if_pos hc]
        exact (ih (swapAt l i j) i (j+1) (Nat.lt_succ_of_lt hij)).trans
          (swapAt_perm l i j hij hj)
      · simp only [if_neg hc]
        exact ih l i (j+1) (Nat.lt_succ_of_lt hij)
    · simp only [if_neg hj]
      exact List.Perm.refl l

theorem sortOuter_perm : ∀ (fuel : ℕ) (l : List Trade) (i : ℕ),
    List.Perm (sortOuter fuel l i) l := by
  intro fuel
  induction fuel with
  | zero => intro l i; exact List.Perm.refl l
  | succ fuel ih =>
    intro l i
    unfold sortOuter
    by_cases hi : i < l.length - 1
    · simp only [if_pos hi]
      exact (ih (sortInner l.length l i (i+1)) (i+1)).trans
        (sortInner_perm l.length l i (i+1) (Nat.lt_succ_self i))
    · simp only [if_neg hi]
      exact List.Perm.refl l

theorem SortTradesByDrawdown_perm (l : List Trade) :
    List.Perm (SortTradesByDrawdown l) l := by
  unfold SortTradesByDrawdown
  by_cases h : l.length ≤ 1
  · simp only [if_pos h]
    exact List.Perm.refl l
  · simp only [if_neg h]
    exact sortOuter_perm l.length l 0

theorem sortInner_spec : ∀ (fuel : ℕ) (l : List Trade) (i j : ℕ),
    i < j → l.length ≤ j + fuel →
    (∀ m, i < m → m < j → key l i ≤ key l m) →
    (sortInner fuel l i j).length = l.length ∧
    (∀ m, m < j → m ≠ i →
      (sortInner fuel l i j).getD m default = l.getD m default) ∧
    (∀ m, i ≤ m → m < l.length → ∃ m2, i ≤ m2 ∧ m2 < l.length ∧
      (sortInner fuel l i j).getD m default = l.getD m2 default) ∧
    (∀ m, i < m → m < l.length →
      key (sortInner fuel l i j) i ≤ key (sortInner fuel l i j) m) := by
  intro fuel
  induction fuel with
  | zero =>
    intro l i j hij hlen hpre
    refine ⟨rfl, fun m _ _ => rfl, fun m him hm => ⟨m, him, hm, rfl⟩, ?_⟩
    intro m him hm
    exact hpre m him (Nat.lt_of_lt_of_le hm (by simpa using hlen))
  | succ fuel ih =>
    intro l i j hij hlen hpre
    unfold sortInner
    by_cases hj : j < l.length
    · simp only [if_pos hj]
      have hi : i < l.length := Nat.lt_trans hij hj
      have hij1 : i ≠ j := Nat.ne_of_lt hij
      by_cases hc : (l.getD j default).ProfitRatio < (l.getD i default).ProfitRatio
      · simp only [if_pos hc]
        have hlen1 : (swapAt l i j).length = l.length := length_swapAt l i j
        have hki : key (swapAt l i j) i = key l j := by
          unfold key
          rw [getD_swapAt_left l hij1 hi]
        have hkj : key (swapAt l i j) j = key l i := by
          unfold key
          rw [getD_swapAt_right l hj]
        have hko : ∀ m, m ≠ i → m ≠ j → key (swapAt l i j) m = key l m := by
          intro m hmi hmj
          unfold key
          rw [getD_swapAt_other l hmi hmj]
        have hpre1 : ∀ m, i < m → m < j + 1 →
            key (swapAt l i j) i ≤ key (swapAt l i j) m := by
          intro m him hm
          rcases Nat.lt_succ_iff_lt_or_eq.mp hm with hmj | hmj
          · rw [hki, hko m (Nat.ne_of_gt him) (Nat.ne_of_lt hmj)]
            exact le_of_lt (lt_of_lt_of_le hc (hpre m him hmj))
          · subst hmj
            rw [hki, hkj]
            exact le_of_lt hc
        have hlen2 : (swapAt l i j).length ≤ (j + 1) + fuel := by omega
        obtain ⟨e1, e2, e3, e4⟩ :=
          ih (swapAt l i j) i (j+1) (Nat.lt_succ_of_lt hij) hlen2 hpre1
        rw [hlen1] at e1 e3
        refine ⟨e1, ?_, ?_, ?_⟩
        · intro m hm hmi
          rw [e2 m (Nat.lt_succ_of_lt hm) hmi,
            getD_swapAt_other l hmi (Nat.ne_of_lt hm)]
        · intro m him hm
          obtain ⟨m2, him2, hm2, hv⟩ := e3 m him hm
          by_cases hm2i : m2 = i
          · subst hm2i
            refine ⟨j, Nat.le_of_lt hij, hj, ?_⟩
            rw [hv, getD_swapAt_left l hij1 hi]
          · by_cases hm2j : m2 = j
            · subst hm2j
              refine ⟨i, Nat.le_refl i, hi, ?_⟩
              rw [hv, getD_swapAt_right l hj]
            · refine ⟨m2, him2, hm2, ?_⟩
              rw [hv, getD_swapAt_other l hm2i hm2j]
        · intro m him hm
          exact e4 m him (by omega)
      · simp only [if_neg hc]
        have hpre1 : ∀ m, i < m → m < j + 1 → key l i ≤ key l m := by
          intro m him hm
          rcases Nat.lt_succ_iff_lt_or_eq.mp hm with hmj | hmj
          · exact hpre m him hmj
          · subst hmj
            exact not_lt.mp hc
        obtain ⟨e1, e2, e3, e4⟩ :=
          ih l i (j+1) (Nat.lt_succ_of_lt hij) (by omega) hpre1
        exact ⟨e1, fun m hm hmi => e2 m (Nat.lt_succ_of_lt hm) hmi, e3, e4⟩
    · rw [if_neg hj]
      have hjl : l.length ≤ j := not_lt.mp hj
      refine ⟨rfl, fun m _ _ => rfl, fun m him hm => ⟨m, him, hm, rfl⟩, ?_⟩
      intro m him hm
      exact hpre m him (Nat.lt_of_lt_of_le hm hjl)

theorem sortOuter_spec : ∀ (fuel : ℕ) (l : List Trade) (i : ℕ),
    l.length ≤ i + 1 + fuel →
    (∀ a b, a < b → a < i → b < l.length → key l a ≤ key l b) →
    (sortOuter fuel l i).length = l.length ∧
    (∀ a b, a < b → b < l.length →
      key (sortOuter fuel l i) a ≤ key (sortOuter fuel l i) b) := by
  intro fuel
  induction fuel with
  | zero =>
    intro l i hlen hinv
    refine ⟨rfl, fun a b hab hb => hinv a b hab (by omega) hb⟩
  | succ fuel ih =>
    intro l i hlen hinv
    unfold sortOuter
    by_cases hi : i < l.length - 1
    · simp only [if_pos hi]
      obtain ⟨e1, e2, e3, e4⟩ := sortInner_spec l.length l i (i+1)
        (Nat.lt_succ_self i) (by omega) (by intro m h1 h2; omega)
      have hinv1 : ∀ a b, a < b → a < i + 1 →
          b < (sortInner l.length l i (i+1)).length →
          key (sortInner l.length l i (i+1)) a ≤
            key (sortInner l.length l i (i+1)) b := by
        intro a b hab ha hb
        have hb1 : b < l.length := by rwa [e1] at hb
        by_cases hai : a = i
        · subst hai
          exact e4 b hab hb1
        · have ha1 : a < i := by omega
          have hka : key (sortInner l.length l i (i+1)) a = key l a := by
            unfold key
            rw [e2 a (by omega) hai]
          by_cases hbi : b < i
          · have hkb : key (sortInner l.length l i (i+1)) b = key l b := by
              unfold key
              rw [e2 b (by omega) (by omega)]
            rw [hka, hkb]
            exact hinv a b hab ha1 hb1
          · have hbge : i ≤ b := not_lt.mp hbi
            obtain ⟨m2, hm21, hm22, hm23⟩ := e3 b hbge hb1
            have hkb : key (sortInner l.length l i (i+1)) b = key l m2 := by
              unfold key
              rw [hm23]
            rw [hka, hkb]
            exact hinv a m2 (by omega) ha1 hm22
      obtain ⟨f1, f2⟩ := ih (sortInner l.length l i (i+1)) (i+1) (by omega) hinv1
      rw [e1] at f1 f2
      refine ⟨f1, ?_⟩
      intro a b hab hb
      exact f2 a b hab hb
    · rw [if_neg hi]
      refine ⟨rfl, fun a b hab hb => hinv a b hab (by omega) hb⟩

theorem SortTradesByDrawdown_sorted_key (l : List Trade) :
    ∀ a b, a < b → b < l.length →
      key (SortTradesByDrawdown l) a ≤ key (SortTradesByDrawdown l) b := by
  unfold SortTradesByDrawdown
  by_cases h : l.length ≤ 1
  · simp only [if_pos h]
    intro a b hab hb
    omega
  · simp only [if_neg h]
    obtain ⟨f1, f2⟩ := sortOuter_spec l.length l 0 (by omega) (by omega)
    exact f2

theorem SortTradesByDrawdown_pairwise (l : List Trade) :
    (SortTradesByDrawdown l).Pairwise (fun a b => a.ProfitRatio ≤ b.ProfitRatio) := by
  rw [List.pairwise_iff_getElem]
  intro a b ha hb hab
  have hlen : (SortTradesByDrawdown l).length = l.length :=
    (SortTradesByDrawdown_perm l).length_eq
  have h := SortTradesByDrawdown_sorted_key l a b hab (by omega)
  simp only [key, List.getD_eq_getElem?_getD] at h
  rwa [List.getElem?_eq_getElem ha, List.getElem?_eq_getElem hb] at h


/-! Behavior of the candidate loop `findAndHedgeTrade`. -/

theorem findLoop_cons_skip (T : ℚ) (f : Trade → HedgeOutcome)
    (t : Trade) (rest : List Trade) (lastE : Option HedgeError)
    (hq : t.ShouldBeHedged T = false) :
    findLoop T f (t :: rest) lastE = findLoop T f rest lastE := by
  simp [findLoop, hq]

theorem findLoop_cons_qualifying (T : ℚ) (f : Trade → HedgeOutcome)
    (t : Trade) (rest : List Trade) (lastE : Option HedgeError)
    (hq : t.ShouldBeHedged T = true) :
    findLoop T f (t :: rest) lastE =
      (match f t with
       | .ok _ => (.ok, [t])
       | .err (.strategy .insufficientBalanceForMinLimit) =>
         ((findLoop T f rest
             (some (.strategy .insufficientBalanceForMinLimit))).1,
           t :: (findLoop T f rest
             (some (.strategy .insufficientBalanceForMinLimit))).2)
       | .err (.strategy .noTrades) => (.err (.strategy .noTrades), [t])
       | .err (.strategy .noLossyTrades) => (.err (.strategy .noLossyTrades), [t])
       | .err (.strategy .insufficientBalance) =>
         (.err (.strategy .insufficientBalance), [t])
       | .err (.strategy .exchangeError) => (.err (.strategy .exchangeError), [t])
       | .err (.generic g) => (.err (.generic g), [t])
       | .nilStatusCrash => (.crash, [t])
       | .nilSellCrash => (.crash, [t])) := by
  simp only [findLoop, hq]
  cases hft : f t with
  | ok rec => simp
  | err e =>
    cases e with
    | strategy et => cases et <;> simp
    | generic g => simp
  | nilStatusCrash => simp
  | nilSellCrash => simp

theorem findLoop_all_skippable (T : ℚ) (f : Trade → HedgeOutcome)
    (hf : ∀ t, f t = .err (.strategy .insufficientBalanceForMinLimit)) :
    ∀ (trades : List Trade) (lastE : Option HedgeError),
      (findLoop T f trades lastE).2 = trades.filter (fun t => t.ShouldBeHedged T) := by
  intro trades
  induction trades with
  | nil => intro lastE; simp [findLoop]
  | cons t rest ih =>
    intro lastE
    cases hq : t.ShouldBeHedged T with
    | false =>
      rw [findLoop_cons_skip T f t rest lastE hq]
      simp [List.filter_cons, hq, ih]
    | true =>
      rw [findLoop_cons_qualifying T f t rest lastE hq, hf t]
      simp [List.filter_cons, hq, ih]

theorem findLoop_at_most_one_success (T : ℚ) (f : Trade → HedgeOutcome) :
    ∀ (trades : List Trade) (lastE : Option HedgeError),
      ((findLoop T f trades lastE).2.countP (fun t => (f t).isOk)) ≤ 1 := by
  intro trades
  induction trades with
  | nil => intro lastE; simp [findLoop]
  | cons t rest ih =>
    intro lastE
    cases hq : t.ShouldBeHedged T with
    | false =>
      rw [findLoop_cons_skip T f t rest lastE hq]
      exact ih lastE
    | true =>
      rw [findLoop_cons_qualifying T f t rest lastE hq]
      cases hft : f t with
      | ok rec => simp [List.countP_cons, hft, HedgeOutcome.isOk]
      | err e =>
        have hnotOk : (fun u => (f u).isOk) t = false := by
          simp [hft, HedgeOutcome.isOk]
        cases e with
        | strategy et =>
          cases et with
          | insufficientBalanceForMinLimit =>
            have hcount := ih (some (.strategy .insufficientBalanceForMinLimit))
            simp only [List.countP_cons, hnotOk]
            simpa using hcount
          | noTrades => simp [List.countP_cons, hnotOk]
          | noLossyTrades => simp [List.countP_cons, hnotOk]
          | insufficientBalance => simp [List.countP_cons, hnotOk]
          | exchangeError => simp [List.countP_cons, hnotOk]
        | generic g => simp [List.countP_cons, hnotOk]
      | nilStatusCrash =>
        have hnotOk : (fun u => (f u).isOk) t = false := by
          simp [hft, HedgeOutcome.isOk]
        simp [List.countP_cons, hnotOk]
      | nilSellCrash =>
        have hnotOk : (fun u => (f u).isOk) t = false := by
          simp [hft, HedgeOutcome.isOk]
        simp [List.countP_cons, hnotOk]

/-- C1.  The claim asserts that the candidate sequence considered by a
hedge pass is the loss-filtered list in ascending `ProfitRatio` order
with ties kept in input order.  The tie clause is false: the exchange
sort in `SortTradesByDrawdown` moves the later of two tied trades in
front of the earlier one as soon as a strictly smaller element precedes
them, as witnessed by `c1t1, c1t2` (equal ratios) and `c1t3` (deeper
drawdown): the considered sequence is `[c1t3, c1t2, c1t1]`, not the
stable `[c1t3, c1t1, c1t2]`. -/
theorem c1_stability_counterexample :
    c1t1.ProfitRatio = c1t2.ProfitRatio ∧ c1t1 ≠ c1t2 ∧
    consideredCandidates 1 [c1t1, c1t2, c1t3] = [c1t3, c1t2, c1t1] ∧
    consideredCandidates 1 [c1t1, c1t2, c1t3] ≠ [c1t3, c1t1, c1t2] := by
  refine ⟨rfl, by decide, by decide, by decide⟩

/-- C1 (amended).  For every threshold `T` and trade list, the sequence
of candidates on which the pass attempts a hedge (when no attempt stops
the scan early, as under an all-skippable hedger) is the drawdown-sorted
list filtered to the trades with `profitRatio < -(T/100)`; that sequence
is sorted by non-decreasing `profitRatio` and is a permutation of the
eligible trades — but equal ratios need not keep their input order. -/
theorem c1_selection_sorted (T : ℚ) (trades : List Trade)
    (f : Trade → HedgeOutcome)
    (hf : ∀ t, f t = .err (.strategy .insufficientBalanceForMinLimit)) :
    (findAndHedgeTrade T f (SortTradesByDrawdown trades)).2 =
      consideredCandidates T trades ∧
    (consideredCandidates T trades).Pairwise
      (fun a b => a.ProfitRatio ≤ b.ProfitRatio) ∧
    List.Perm (consideredCandidates T trades)
      (trades.filter (fun t => decide (t.ProfitRatio < -(T/100)))) := by
  refine ⟨findLoop_all_skippable T f hf (SortTradesByDrawdown trades) none, ?_, ?_⟩
  · exact (SortTradesByDrawdown_pairwise trades).sublist (List.filter_sublist _)
  · have hp := (SortTradesByDrawdown_perm trades).filter
      (fun t => t.ShouldBeHedged T)
    simpa [consideredCandidates, Trade.ShouldBeHedged] using hp

/-- Witness for `c1_selection_sorted` at the concrete three-trade list
and threshold 1, with the all-skippable hedger. -/
theorem c1_selection_sorted_witness :
    (findAndHedgeTrade 1 skipAllHedger
        (SortTradesByDrawdown [c1t1, c1t2, c1t3])).2 =
      consideredCandidates 1 [c1t1, c1t2, c1t3] ∧
    (consideredCandidates 1 [c1t1, c1t2, c1t3]).Pairwise
      (fun a b => a.ProfitRatio ≤ b.ProfitRatio) ∧
    List.Perm (consideredCandidates 1 [c1t1, c1t2, c1t3])
      ([c1t1, c1t2, c1t3].filter (fun t => decide (t.ProfitRatio < -(1/100)))) := by
  have h := c1_selection_sorted 1 [c1t1, c1t2, c1t3] skipAllHedger (fun t => rfl)
  simpa using h

/-- C2.  Per pass at most one candidate is hedged: a successful attempt
returns immediately with only that candidate touched; a skippable
minimum-limit failure advances to the next candidate (accumulating the
error as `lastError`); any other error returns immediately; and on every
input the list of attempted candidates contains at most one success. -/
theorem c2_single_hedge_per_pass (T : ℚ) (f : Trade → HedgeOutcome)
    (t : Trade) (rest : List Trade) (lastE : Option HedgeError)
    (hq : t.ShouldBeHedged T = true) :
    (∀ rec, f t = .ok rec → findLoop T f (t :: rest) lastE = (.ok, [t])) ∧
    (f t = .err (.strategy .insufficientBalanceForMinLimit) →
      findLoop T f (t :: rest) lastE =
        ((findLoop T f rest (some (.strategy .insufficientBalanceForMinLimit))).1,
          t :: (findLoop T f rest
            (some (.strategy .insufficientBalanceForMinLimit))).2)) ∧
    (∀ e, f t = .err e → e ≠ .strategy .insufficientBalanceForMinLimit →
      findLoop T f (t :: rest) lastE = (.err e, [t])) ∧
    (∀ (trades : List Trade) (lastE2 : Option HedgeError),
      ((findLoop T f trades lastE2).2.countP (fun u => (f u).isOk)) ≤ 1) := by
  refine ⟨?_, ?_, ?_, findLoop_at_most_one_success T f⟩
  · intro rec hft
    rw [findLoop_cons_qualifying T f t rest lastE hq, hft]
  · intro hft
    rw [findLoop_cons_qualifying T f t rest lastE hq, hft]
  · intro e hft hne
    rw [findLoop_cons_qualifying T f t rest lastE hq, hft]
    cases e with
    | strategy et =>
      cases et with
      | insufficientBalanceForMinLimit => exact absurd rfl hne
      | noTrades => rfl
      | noLossyTrades => rfl
      | insufficientBalance => rfl
      | exchangeError => rfl
    | generic g => rfl

/-- Witness for `c2_single_hedge_per_pass`: the deep-drawdown trade
qualifies at threshold 3, and under the all-skippable hedger the pass
advances past it. -/
theorem c2_single_hedge_per_pass_witness :
    c1t3.ShouldBeHedged 3 = true ∧
    findLoop 3 skipAllHedger [c1t3] none =
      ((findLoop 3 skipAllHedger []
          (some (.strategy .insufficientBalanceForMinLimit))).1,
        c1t3 :: (findLoop 3 skipAllHedger []
          (some (.strategy .insufficientBalanceForMinLimit))).2) := by
  have hq : c1t3.ShouldBeHedged 3 = true := by decide
  have h := c2_single_hedge_per_pass 3 skipAllHedger c1t3 [] none hq
  exact ⟨hq, h.2.1 rfl⟩

/-! Behavior of the wait-for-fill loop. -/

theorem waitFill_congr (p q : ℕ → Option OrderStatusInfo) :
    ∀ (fuel attempt : ℕ) (cur : Option OrderStatusInfo),
      (∀ a, attempt ≤ a → a < attempt + fuel → p a = q a) →
      waitFill p fuel attempt cur = waitFill q fuel attempt cur := by
  intro fuel
  induction fuel with
  | zero => intro attempt cur _; rfl
  | succ fuel ih =>
    intro attempt cur hagree
    have h1 : p attempt = q attempt := hagree attempt (Nat.le_refl _) (by omega)
    unfold waitFill
    rw [h1]
    cases hq : q attempt with
    | none =>
      exact ih (attempt + 1) none (fun a ha1 ha2 => hagree a (by omega) (by omega))
    | some s =>
      by_cases hf : s.Status = .filled
      · simp [hf]
      · simp only [if_neg hf]
        by_cases hc : s.Status.IsCompleted ∧ s.Status ≠ .filled
        · simp [hc]
        · simp only [if_neg hc]
          by_cases hl : attempt = maxWaitAttempts
          · simp [hl]
          · simp only [if_neg hl]
            exact ih (attempt + 1) (some s)
              (fun a ha1 ha2 => hagree a (by omega) (by omega))

theorem waitFill_timeout (p : ℕ → Option OrderStatusInfo) :
    ∀ (fuel attempt : ℕ) (cur : Option OrderStatusInfo),
      attempt + fuel = 31 → attempt ≤ 30 →
      (∀ a, attempt ≤ a → a ≤ 30 → ∃ s, p a = some s ∧ s.Status.IsCompleted = false) →
      waitFill p fuel attempt cur = .timedOut := by
  intro fuel
  induction fuel with
  | zero => intro attempt cur h30 hle _; omega
  | succ fuel ih =>
    intro attempt cur h30 hle hp
    obtain ⟨s, hps, hsc⟩ := hp attempt (Nat.le_refl _) hle
    have hnf : s.Status ≠ .filled := by
      intro h
      rw [h] at hsc
      simp [OrderStatus.IsCompleted] at hsc
    have hnc : ¬(s.Status.IsCompleted ∧ s.Status ≠ .filled) := by
      intro ⟨h1, _⟩
      rw [hsc] at h1
      cases h1
    unfold waitFill
    rw [hps]
    simp only [if_neg hnf, if_neg hnc]
    by_cases hl : attempt = maxWaitAttempts
    · simp [hl]
    · simp only [if_neg hl]
      have hlt : attempt < 30 := by
        have : attempt ≠ 30 := by simpa [maxWaitAttempts] using hl
        omega
      exact ih (attempt + 1) (some s) (by omega) (by omega)
        (fun a ha1 ha2 => hp a (by omega) ha2)

theorem waitFill_err30_no_timeout (p : ℕ → Option OrderStatusInfo)
    (h30 : p 30 = none) :
    ∀ (fuel attempt : ℕ) (cur : Option OrderStatusInfo),
      attempt + fuel = 31 →
      waitFill p fuel attempt cur ≠ .timedOut := by
  intro fuel
  induction fuel with
  | zero => intro attempt cur _; simp [waitFill]
  | succ fuel ih =>
    intro attempt cur hsum
    unfold waitFill
    cases hps : p attempt with
    | none => exact ih (attempt + 1) none (by omega)
    | some s =>
      by_cases hf : s.Status = .filled
      · simp [hf]
      · simp only [if_neg hf]
        by_cases hc : s.Status.IsCompleted ∧ s.Status ≠ .filled
        · simp [hc]
        · simp only [if_neg hc]
          by_cases hl : attempt = maxWaitAttempts
          · exfalso
            have : attempt = 30 := by simpa [maxWaitAttempts] using hl
            rw [this] at hps
            rw [h30] at hps
            cases hps
          · simp only [if_neg hl]
            exact ih (attempt + 1) (some s) (by omega)

theorem waitFill_first_filled (p : ℕ → Option OrderStatusInfo)
    (fuel attempt : ℕ) (cur : Option OrderStatusInfo) (s : OrderStatusInfo)
    (hps : p attempt = some s) (hf : s.Status = .filled) :
    waitFill p (fuel + 1) attempt cur = .broke s := by
  unfold waitFill
  rw [hps]
  simp [hf]

theorem waitFill_first_completedBad (p : ℕ → Option OrderStatusInfo)
    (fuel attempt : ℕ) (cur : Option OrderStatusInfo) (s : OrderStatusInfo)
    (hps : p attempt = some s) (hc : s.Status.IsCompleted = true)
    (hf : s.Status ≠ .filled) :
    waitFill p (fuel + 1) attempt cur = .completedBad s.Status := by
  unfold waitFill
  rw [hps]
  simp [hf, hc]

/-- C3 (amended).  The wait-for-fill step polls at most the 30 attempts
1..30 at the fixed 1-second spacing (its outcome depends on no other
poll); it exits immediately when a poll reports FILLED — also on a
partial fill, whose `FilledQty` then drives the sell leg uncut when the
base-balance check is skipped; a terminal non-FILLED status aborts the
attempt; and reaching the attempt bound yields the fill-timeout error
when the 30th poll successfully returns a non-terminal status — but when
the 30th poll itself errors, the bound check is skipped, the loop exits
without the timeout error, and the snapshot variable is nil. -/
theorem c3_wait_for_fill (p : ℕ → Option OrderStatusInfo)
    (q : ℕ → Option OrderStatusInfo)
    (hagree : ∀ a, 1 ≤ a → a ≤ 30 → p a = q a) :
    (waitForFill p = waitForFill q) ∧
    (∀ s, p 1 = some s → s.Status = .filled → waitForFill p = .broke s) ∧
    (∀ s, p 1 = some s → s.Status = .filled → 0 < s.FilledQty →
      clampPhase none s.FilledQty = .ok s.FilledQty) ∧
    (∀ s, p 1 = some s → s.Status.IsCompleted = true → s.Status ≠ .filled →
      waitForFill p = .completedBad s.Status) ∧
    ((∀ a, 1 ≤ a → a ≤ 30 → ∃ s, p a = some s ∧ s.Status.IsCompleted = false) →
      waitForFill p = .timedOut) ∧
    (p 30 = none → waitForFill p ≠ .timedOut) := by
  refine ⟨?_, ?_, ?_, ?_, ?_, ?_⟩
  · exact waitFill_congr p q 30 1 none (fun a h1 h2 => hagree a h1 (by omega))
  · intro s hps hf
    exact waitFill_first_filled p 29 1 none s hps hf
  · intro s _ _ hq
    simp [clampPhase, not_le.mpr hq]
  · intro s hps hc hf
    exact waitFill_first_completedBad p 29 1 none s hps hc hf
  · intro hp
    exact waitFill_timeout p 30 1 none (by omega) (by omega) (fun a h1 h2 => hp a h1 h2)
  · intro h30
    exact waitFill_err30_no_timeout p h30 30 1 none (by omega)

/-- C3 counterexample: with 29 pending reports followed by an error on
the 30th and final poll, the attempt bound is reached without any fill,
yet the loop does not return the fill-timeout error — it falls out of
the loop with a nil snapshot (the subsequent `FilledQty` read is the
crash recorded under C10). -/
theorem c3_timeout_counterexample :
    (∀ a, match pollsPendingThenErr a with
          | some s => s.Status ≠ OrderStatus.filled
          | none => True) ∧
    waitForFill pollsPendingThenErr = .loopExit none ∧
    WaitOutcome.loopExit none ≠ WaitOutcome.timedOut := by
  refine ⟨?_, by decide, by decide⟩
  intro a
  unfold pollsPendingThenErr
  by_cases h : a ≤ 29
  · simp [h, pendingSnap]
  · simp [h]

/-- Witness for `c3_wait_for_fill` with polls agreeing with themselves,
a first poll reporting the terminal partial fill, and the resulting
outcome. -/
theorem c3_wait_for_fill_witness :
    waitForFill (fun _ => some partialFillSnap) = .broke partialFillSnap ∧
    clampPhase none partialFillSnap.FilledQty = .ok partialFillSnap.FilledQty := by
  have h := c3_wait_for_fill (fun _ => some partialFillSnap)
    (fun _ => some partialFillSnap) (fun a _ _ => rfl)
  refine ⟨h.2.1 partialFillSnap rfl rfl, ?_⟩
  exact h.2.2.1 partialFillSnap rfl rfl (by norm_num [partialFillSnap])

/-- C10.  The claim states the post-loop `FilledQty` read never
dereferences a nil snapshot.  It does: when every one of the 30 status
polls fails, each failed poll overwrites `buyOrderStatus` with nil and
skips the attempt-bound check, so the loop exits normally with a nil
snapshot and `hedgeTrade` crashes on `buyOrderStatus.FilledQty`. -/
theorem c10_nil_snapshot_dereference :
    (∀ a, allPollsFailEnv.polls a = none) ∧
    waitForFill allPollsFailEnv.polls = .loopExit none ∧
    hedgeTrade scenarioCfg allPollsFailEnv scenarioTrade = .nilStatusCrash := by
  exact ⟨fun a => rfl, by decide, by decide⟩

/-! Take-profit price normalization. -/

/-- C4 counterexample.  In the code the decimal normalization runs
inside `CalculateTakeProfitPrice`, before the tick rounding done in
`hedgeTrade` — not after it as the claim orders the steps — so the final
price need not satisfy the digit bound: at `currentPrice = 50000`,
`profitRatio = -0.05`, capture ratio `0.7` and tick size `0.000007`, the
price driving the sell order is `51750.000001`, which is not a multiple
of `10^-4` and hence has more than 4 fractional digits. -/
theorem c4_digits_counterexample :
    highPriceTrade.CurrentRate = 50000 ∧
    ¬ highPriceTrade.CurrentRate < 1/10000 ∧
    takeProfitPipeline highPriceTrade (7/10) (7/1000000) = 51750000001/1000000 ∧
    (takeProfitPipeline highPriceTrade (7/10) (7/1000000) * 10^4).den ≠ 1 := by
  refine ⟨rfl, by decide, by decide, by decide⟩

/-- C4 (amended).  `rawPrice = currentPrice * (1 + (-r * 100 * c)/100)`
is decimal-normalized first, inside the entity computation: the entity
take-profit price is an exact multiple of `10^-8` when
`currentPrice < 1e-4` and of `10^-4` otherwise — exactly 8 fractional
digits in the `currentPrice = 0.00003` example and a multiple of `10^-4`
at `currentPrice = 50000`.  Only then does `hedgeTrade` round that price
to the tick grid, substituting `currentPrice * 1.001` when the rounded
value is non-positive; the final price need not retain the digit bound. -/
theorem c4_take_profit_normalization (t : Trade) (c : ℚ) :
    ((t.CalculateTakeProfitPrice c) *
      (if t.CurrentRate < 1/10000 then 10^8 else 10^4)).den = 1 ∧
    (∀ tick : ℚ, takeProfitPipeline t c tick =
      (if (if 0 < tick
            then (mathRound (t.CalculateTakeProfitPrice c / tick) : ℚ) * tick
            else t.CalculateTakeProfitPrice c) ≤ 0
       then t.CurrentRate * (1001/1000)
       else (if 0 < tick
            then (mathRound (t.CalculateTakeProfitPrice c / tick) : ℚ) * tick
            else t.CalculateTakeProfitPrice c))) ∧
    (tinyPriceTrade.CalculateTakeProfitPrice (7/10) * 10^8).den = 1 ∧
    (tinyPriceTrade.CalculateTakeProfitPrice (7/10) * 10^7).den ≠ 1 ∧
    (highPriceTrade.CalculateTakeProfitPrice (7/10) * 10^4).den = 1 := by
  refine ⟨?_, fun tick => rfl, by decide, by decide, by decide⟩
  unfold Trade.CalculateTakeProfitPrice formatParse
  by_cases hr : t.CurrentRate < 1/10000
  · simp only [if_pos hr]
    have h8 : ((10:ℚ)^(8:ℕ)) ≠ 0 := by norm_num
    have : ((mathRound ((goTrunc (t.CurrentRate * (1 + t.ProfitRatio * (-100) * c / 100)
        * 100000000 + 1/2) : ℚ) / 100000000 * 10 ^ (8:ℕ)) : ℚ) / 10 ^ (8:ℕ)) * 10 ^ (8:ℕ)
        = ((mathRound ((goTrunc (t.CurrentRate * (1 + t.ProfitRatio * (-100) * c / 100)
        * 100000000 + 1/2) : ℚ) / 100000000 * 10 ^ (8:ℕ)) : ℚ)) := by
      field_simp
    rw [this]
    exact Rat.den_intCast _
  · simp only [if_neg hr]
    have : ((mathRound ((goTrunc (t.CurrentRate * (1 + t.ProfitRatio * (-100) * c / 100)
        * 10000 + 1/2) : ℚ) / 10000 * 10 ^ (4:ℕ)) : ℚ) / 10 ^ (4:ℕ)) * 10 ^ (4:ℕ)
        = ((mathRound ((goTrunc (t.CurrentRate * (1 + t.ProfitRatio * (-100) * c / 100)
        * 10000 + 1/2) : ℚ) / 10000 * 10 ^ (4:ℕ)) : ℚ)) := by
      field_simp
    rw [this]
    exact Rat.den_intCast _

/-! Reconciliation pass. -/

theorem toGoString_pending_iff (s : OrderStatus) :
    (decide (s.toGoString = "PENDING")) = (s == .pending) := by
  cases s <;> decide

theorem checkSingle_own_record_only (env1 env2 : CheckEnv) (t : HedgedTrade)
    (hs : env1.statusOf t.BybitOrderID = env2.statusOf t.BybitOrderID)
    (hu : env1.updateOk t.BybitOrderID = env2.updateOk t.BybitOrderID)
    (hn : env1.now = env2.now) :
    checkSingleOrderStatus env1 t = checkSingleOrderStatus env2 t := by
  unfold checkSingleOrderStatus
  rw [hs, hu, hn]

/-- C5 counterexample: a record whose stored status is the non-terminal
`PARTIALLY_FILLED` (`IsCompleted = false`) is not in the set the
reconciliation pass fetches (the status filter is the literal
`"PENDING"`), so its venue status is never fetched. -/
theorem c5_nonterminal_skipped_counterexample :
    partialRec.OrderStatus.IsCompleted = false ∧
    GetHedgedTrades [partialRec] (some "PENDING") = [] ∧
    (CheckAllActiveOrders failAllCheckEnv [partialRec]).1 = [] := by
  exact ⟨rfl, rfl, rfl⟩

/-- C5 (amended).  A reconciliation pass processes exactly the records
whose stored status is `PENDING` (not every non-terminal record); each
record's processing depends only on the venue response and update result
for its own order id, so one record's fetch or update error is isolated
from the remaining records; and a record whose venue status is unchanged
gets only a touch update carrying its own status and close fields, with
the non-error result `false` (success that is not a status change). -/
theorem c5_reconciliation (env : CheckEnv) (ledger : List HedgedTrade) :
    ((CheckAllActiveOrders env ledger).1.map Prod.fst =
      ledger.filter (fun t => t.OrderStatus == OrderStatus.pending)) ∧
    (∀ env2 t, env.statusOf t.BybitOrderID = env2.statusOf t.BybitOrderID →
      env.updateOk t.BybitOrderID = env2.updateOk t.BybitOrderID →
      env.now = env2.now →
      checkSingleOrderStatus env t = checkSingleOrderStatus env2 t) ∧
    (∀ t s, env.statusOf t.BybitOrderID = some s → s.Status = t.OrderStatus →
      checkSingleOrderStatus env t =
        (some { orderID := t.BybitOrderID, status := t.OrderStatus,
                closePrice := t.ClosePrice, closeTime := t.CloseTime },
          if env.updateOk t.BybitOrderID then .ok false else .error ())) := by
  refine ⟨?_, ?_, ?_⟩
  · unfold CheckAllActiveOrders GetHedgedTrades
    simp only [List.map_map]
    have h1 : (ledger.filter (fun t => decide (t.OrderStatus.toGoString = "PENDING"))).map
        (Prod.fst ∘ fun t => (t, checkSingleOrderStatus env t)) =
        (ledger.filter (fun t => decide (t.OrderStatus.toGoString = "PENDING"))).map id := by
      exact List.map_congr_left (fun t _ => rfl)
    rw [h1, List.map_id]
    exact List.filter_congr (fun t _ => toGoString_pending_iff t.OrderStatus)
  · exact fun env2 t => checkSingle_own_record_only env env2 t
  · intro t s hfetch hsame
    unfold checkSingleOrderStatus
    rw [hfetch]
    simp [hsame]

/-- Witness for `c5_reconciliation`: with a two-record ledger only the
PENDING record is processed, and the touch environment (venue still
PENDING) produces the touch update on it. -/
theorem c5_reconciliation_witness :
    (CheckAllActiveOrders touchCheckEnv [pendingRec, partialRec]).1.map Prod.fst =
      [pendingRec] ∧
    checkSingleOrderStatus touchCheckEnv pendingRec =
      (some { orderID := pendingRec.BybitOrderID, status := pendingRec.OrderStatus,
              closePrice := pendingRec.ClosePrice, closeTime := pendingRec.CloseTime },
        if touchCheckEnv.updateOk pendingRec.BybitOrderID then .ok false
        else .error ()) := by
  have h := c5_reconciliation touchCheckEnv [pendingRec, partialRec]
  refine ⟨?_, ?_⟩
  · rw [h.1]
    rfl
  · exact h.2.2 pendingRec touchSnap rfl rfl

/-! Sizing rejections and the buy limit price. -/

/-- C6.  With a sufficient base-currency balance, a `positionAmount`
below the venue minimum order notional yields the skippable
`InsufficientForMinLimit` error (not `InsufficientBalance`); an
available balance below `positionAmount * 1.01` yields
`InsufficientBalance`; and the candidate loop returns the
`InsufficientBalance` error immediately, aborting the pass instead of
advancing to the next candidate. -/
theorem c6_sizing_rejection (cfg : HedgeStrategyConfig) (env : ExchangeEnv)
    (trade : Trade) (b : Balance) (info : InstrumentInfo)
    (hb : env.balance = some b) :
    (cfg.PositionAmount * (101/100) ≤ b.Available →
      env.instrument = some info → 0 < info.MinOrderAmt →
      cfg.PositionAmount < info.MinOrderAmt →
      hedgeTrade cfg env trade = .err (.strategy .insufficientBalanceForMinLimit)) ∧
    (b.Available < cfg.PositionAmount * (101/100) →
      hedgeTrade cfg env trade = .err (.strategy .insufficientBalance)) ∧
    (∀ (T : ℚ) (f : Trade → HedgeOutcome) (t : Trade) (rest : List Trade)
       (lastE : Option HedgeError), t.ShouldBeHedged T = true →
       f t = .err (.strategy .insufficientBalance) →
       findLoop T f (t :: rest) lastE =
         (.err (.strategy .insufficientBalance), [t])) := by
  refine ⟨?_, ?_, ?_⟩
  · intro hsuf hinst hpos hlt
    have hsz : sizing cfg env trade =
        .error (.strategy .insufficientBalanceForMinLimit) := by
      unfold sizing
      rw [hb, hinst]
      simp [Balance.HasSufficientBalance, hsuf, not_le.mpr hpos, hlt]
    simp [hedgeTrade, hsz]
  · intro hlow
    have hsz : sizing cfg env trade = .error (.strategy .insufficientBalance) := by
      unfold sizing
      rw [hb]
      simp [Balance.HasSufficientBalance, not_le.mpr hlow]
    simp [hedgeTrade, hsz]
  · intro T f t rest lastE hq hft
    rw [findLoop_cons_qualifying T f t rest lastE hq, hft]

/-- Witness for `c6_sizing_rejection`: notional 3 against `MinOrderAmt` 5
with ample balance gives the skippable minimum-limit error; available
balance 2 against required `101` gives the pass-aborting balance error,
which the candidate loop returns at once. -/
theorem c6_sizing_rejection_witness :
    hedgeTrade smallAmountCfg minLimitEnv scenarioTrade =
      .err (.strategy .insufficientBalanceForMinLimit) ∧
    hedgeTrade scenarioCfg poorBalanceEnv scenarioTrade =
      .err (.strategy .insufficientBalance) ∧
    findLoop 3 (fun _ => .err (.strategy .insufficientBalance))
        [scenarioTrade] none =
      (.err (.strategy .insufficientBalance), [scenarioTrade]) := by
  refine ⟨?_, ?_, ?_⟩
  · exact (c6_sizing_rejection smallAmountCfg minLimitEnv scenarioTrade
      { Asset := "USDT", Available := 1000, Total := 1000 }
      { scenarioInfo with MinOrderAmt := 5 } rfl).1
      (by norm_num [smallAmountCfg, scenarioCfg]) rfl (by norm_num)
      (by norm_num [smallAmountCfg, scenarioCfg, scenarioInfo])
  · exact (c6_sizing_rejection scenarioCfg poorBalanceEnv scenarioTrade
      { Asset := "USDT", Available := 2, Total := 2 } scenarioInfo rfl).2.1
      (by norm_num [scenarioCfg])
  · exact (c6_sizing_rejection scenarioCfg poorBalanceEnv scenarioTrade
      { Asset := "USDT", Available := 2, Total := 2 } scenarioInfo rfl).2.2
      3 (fun _ => .err (.strategy .insufficientBalance)) scenarioTrade [] none
      (by decide) rfl

theorem abs_mathRound_sub_le (x : ℚ) : |(mathRound x : ℚ) - x| ≤ 1/2 := by
  unfold mathRound
  by_cases h : 0 ≤ x
  · rw [if_pos h, abs_le]
    constructor
    · have := Int.sub_one_lt_floor (x + 1/2)
      push_cast at this ⊢
      linarith
    · have := Int.floor_le (x + 1/2)
      push_cast at this ⊢
      linarith
  · rw [if_neg h, abs_le]
    constructor
    · have := Int.le_ceil (x - 1/2)
      push_cast at this ⊢
      linarith
    · have := Int.ceil_lt_add_one (x - 1/2)
      push_cast at this ⊢
      linarith

/-- C7.  The limit buy price is `currentPrice * 1.001` rounded to the
nearest tick multiple when a positive tick size is defined (the rounded
value differs from the buffered price by at most half a tick), with the
unrounded buffered price substituted when no positive tick size exists
or when the rounded value is non-positive or below the `1e-4` floor; in
particular the price is positive whenever the current price is. -/
theorem c7_buy_limit_price (rate tick : ℚ) :
    (0 < tick → buyLimitPrice rate tick =
      (if (mathRound (rate * (1001/1000) / tick) : ℚ) * tick ≤ 0 ∨
          (mathRound (rate * (1001/1000) / tick) : ℚ) * tick < 1/10000
       then rate * (1001/1000)
       else (mathRound (rate * (1001/1000) / tick) : ℚ) * tick)) ∧
    (¬ 0 < tick → buyLimitPrice rate tick = rate * (1001/1000)) ∧
    (0 < rate → 0 < buyLimitPrice rate tick) ∧
    (0 < tick →
      |(mathRound (rate * (1001/1000) / tick) : ℚ) * tick -
        rate * (1001/1000)| ≤ tick / 2) := by
  refine ⟨?_, ?_, ?_, ?_⟩
  · intro htick
    simp [buyLimitPrice, htick]
  · intro htick
    simp [buyLimitPrice, htick]
  · intro hrate
    have hbuf : 0 < rate * (1001/1000) := by positivity
    unfold buyLimitPrice
    by_cases hc : (if 0 < tick
        then (mathRound (rate * (1001/1000) / tick) : ℚ) * tick
        else rate * (1001/1000)) ≤ 0 ∨
        (if 0 < tick
        then (mathRound (rate * (1001/1000) / tick) : ℚ) * tick
        else rate * (1001/1000)) < 1/10000
    · rw [if_pos hc]
      exact hbuf
    · rw [if_neg hc]
      push_neg at hc
      exact lt_of_lt_of_le (by norm_num) hc.2
  · intro htick
    have hne : tick ≠ 0 := ne_of_gt htick
    have h2 : rate * (1001/1000) / tick * tick = rate * (1001/1000) := by
      field_simp
      ring
    calc |(mathRound (rate * (1001/1000) / tick) : ℚ) * tick - rate * (1001/1000)|
        = |((mathRound (rate * (1001/1000) / tick) : ℚ) -
            rate * (1001/1000) / tick) * tick| := by
          rw [sub_mul, h2]
      _ = |(mathRound (rate * (1001/1000) / tick) : ℚ) -
            rate * (1001/1000) / tick| * tick := by
          rw [abs_mul, abs_of_pos htick]
      _ ≤ (1/2) * tick :=
          mul_le_mul_of_nonneg_right
            (abs_mathRound_sub_le (rate * (1001/1000) / tick)) (le_of_lt htick)
      _ = tick / 2 := by ring

/-- Witness for `c7_buy_limit_price` at rate 50000 and tick 0.01: the
price is positive and equals 50050. -/
theorem c7_buy_limit_price_witness :
    0 < buyLimitPrice 50000 (1/100) ∧ buyLimitPrice 50000 (1/100) = 50050 := by
  exact ⟨(c7_buy_limit_price 50000 (1/100)).2.2.1 (by norm_num), by decide⟩

/-! The persisted hedge record. -/

theorem hedgeTrade_ok_inversion (cfg : HedgeStrategyConfig) (env : ExchangeEnv)
    (trade : Trade) (rec : HedgedTrade)
    (h : hedgeTrade cfg env trade = .ok rec) :
    ∃ q info s qty r,
      sizing cfg env trade = .ok (q, info) ∧
      waitPhase (waitForFill env.polls) = .ok s ∧
      clampPhase env.baseBalance s.FilledQty = .ok qty ∧
      sellLoop env.sellResults cfg.RetryAttempts cfg.RetryAttempts 1 = .ok r ∧
      env.saveOk = true ∧
      rec = mkHedgedTrade trade env.now r.OrderID qty
        (takeProfitPipeline trade cfg.ProfitRatio info.TickSize) := by
  unfold hedgeTrade at h
  cases hs : sizing cfg env trade with
  | error e => rw [hs] at h; simp at h
  | ok pr =>
    obtain ⟨q, info⟩ := pr
    rw [hs] at h
    simp only at h
    cases hbp : buyPhase env (toBybitFormat trade.Pair) q trade.CurrentRate
        info.TickSize with
    | error e => rw [hbp] at h; simp at h
    | ok buyResult =>
      rw [hbp] at h
      simp only at h
      cases hw : waitPhase (waitForFill env.polls) with
      | crash => rw [hw] at h; simp at h
      | err e => rw [hw] at h; simp at h
      | ok s =>
        rw [hw] at h
        simp only at h
        cases hc : clampPhase env.baseBalance s.FilledQty with
        | error e => rw [hc] at h; simp at h
        | ok qty =>
          rw [hc] at h
          simp only at h
          by_cases hq0 : (NewLimitOrder (toBybitFormat trade.Pair) .sell qty
              (takeProfitPipeline trade cfg.ProfitRatio info.TickSize)).Quantity ≤ 0
          · rw [if_pos hq0] at h; simp at h
          · rw [if_neg hq0] at h
            by_cases hp0 : (NewLimitOrder (toBybitFormat trade.Pair) .sell qty
                (takeProfitPipeline trade cfg.ProfitRatio info.TickSize)).Price ≤ 0
            · rw [if_pos hp0] at h; simp at h
            · rw [if_neg hp0] at h
              cases hsl : sellLoop env.sellResults cfg.RetryAttempts
                  cfg.RetryAttempts 1 with
              | crash => rw [hsl] at h; simp at h
              | err e => rw [hsl] at h; simp at h
              | ok sellResult =>
                rw [hsl] at h
                simp only at h
                cases hsave : env.saveOk with
                | false => rw [hsave] at h; simp at h
                | true =>
                  rw [hsave] at h
                  simp only [if_pos rfl] at h
                  refine ⟨q, info, s, qty, sellResult, rfl, rfl, hc, rfl, rfl, ?_⟩
                  simpa using h.symm

/-- C9.  Every record persisted by a successful hedge attempt stores the
take-profit sell order's id as its hedge order id (the id of the order
the sell retry loop placed, not the buy leg's), the position's market
price at decision time as the hedge open price, status PENDING, a set
last-status-check time, and nil close fields; the reconciliation of that
record therefore keys its venue poll and update on the stored sell-leg
order id. -/
theorem c9_record_contents (cfg : HedgeStrategyConfig) (env : ExchangeEnv)
    (trade : Trade) (rec : HedgedTrade)
    (h : hedgeTrade cfg env trade = .ok rec) :
    rec.OrderStatus = .pending ∧
    rec.LastStatusCheck = some env.now ∧
    rec.ClosePrice = none ∧
    rec.CloseTime = none ∧
    rec.HedgeOpenPrice = trade.CurrentRate ∧
    (∃ r, sellLoop env.sellResults cfg.RetryAttempts cfg.RetryAttempts 1 = .ok r ∧
      rec.BybitOrderID = r.OrderID) ∧
    (∀ env1 env2 : CheckEnv,
      env1.statusOf rec.BybitOrderID = env2.statusOf rec.BybitOrderID →
      env1.updateOk rec.BybitOrderID = env2.updateOk rec.BybitOrderID →
      env1.now = env2.now →
      checkSingleOrderStatus env1 rec = checkSingleOrderStatus env2 rec) := by
  obtain ⟨q, info, s, qty, r, _, _, _, hsl, _, hrec⟩ :=
    hedgeTrade_ok_inversion cfg env trade rec h
  subst hrec
  refine ⟨rfl, rfl, rfl, rfl, rfl, ⟨r, hsl, rfl⟩, ?_⟩
  intro env1 env2 hs hu hn
  exact checkSingle_own_record_only env1 env2 _ hs hu hn

/-- Witness for `c9_record_contents`: the successful scenario hedge
persists `scenarioRec`, whose hedge order id is the sell leg's `SELL1`
(the buy leg's id is `BUY1`) and whose hedge open price is the market
price 50000 (the buy order's fill price was 50050). -/
theorem c9_record_contents_witness :
    hedgeTrade scenarioCfg happyEnv scenarioTrade = .ok scenarioRec ∧
    scenarioRec.OrderStatus = .pending ∧
    scenarioRec.LastStatusCheck = some happyEnv.now ∧
    scenarioRec.ClosePrice = none ∧
    scenarioRec.CloseTime = none ∧
    scenarioRec.HedgeOpenPrice = scenarioTrade.CurrentRate ∧
    scenarioRec.BybitOrderID = "SELL1" ∧
    happyEnv.buyResult = some { OrderID := "BUY1", Success := true, Error := "" } ∧
    scenarioRec.BybitOrderID ≠ "BUY1" ∧
    partialFillSnap.FilledPrice = some 50050 ∧
    scenarioRec.HedgeOpenPrice ≠ 50050 := by
  have hrun : hedgeTrade scenarioCfg happyEnv scenarioTrade = .ok scenarioRec := by
    decide
  have h := c9_record_contents scenarioCfg happyEnv scenarioTrade scenarioRec hrun
  exact ⟨hrun, h.1, h.2.1, h.2.2.1, h.2.2.2.1, h.2.2.2.2.1, rfl, rfl,
    by decide, rfl, by decide⟩

/-- C8.  A hedge record's lifecycle never regresses and its close fields
are written only with the terminal transition: creation persists the
non-terminal PENDING status with nil close fields; the reconciliation
pass mutates only records whose stored status is PENDING (the bottom of
the lifecycle order, so no update moves a record backwards); an
unchanged venue status produces a touch rewriting the same status and
the record's own close fields; and an update writes a non-nil close
price only with the FILLED status and a non-nil close time only with a
terminal status. -/
theorem c8_lifecycle :
    (∀ (cfg : HedgeStrategyConfig) (env : ExchangeEnv) (trade : Trade)
       (rec : HedgedTrade), hedgeTrade cfg env trade = .ok rec →
       rec.OrderStatus = .pending ∧ rec.OrderStatus.IsCompleted = false ∧
       rec.ClosePrice = none ∧ rec.CloseTime = none) ∧
    (∀ (env : CheckEnv) (ledger : List HedgedTrade)
       (x : HedgedTrade × (Option UpdateArgs × Except Unit Bool)),
       x ∈ (CheckAllActiveOrders env ledger).1 → x.1.OrderStatus = .pending) ∧
    (∀ (cenv : CheckEnv) (t : HedgedTrade) (args : UpdateArgs)
       (res : Except Unit Bool),
       t.OrderStatus = .pending → t.ClosePrice = none → t.CloseTime = none →
       checkSingleOrderStatus cenv t = (some args, res) →
       statusRank t.OrderStatus ≤ statusRank args.status ∧
       (args.status = t.OrderStatus →
         args.closePrice = t.ClosePrice ∧ args.closeTime = t.CloseTime) ∧
       (args.closePrice ≠ none → args.status = .filled) ∧
       (args.closeTime ≠ none → args.status.IsCompleted = true)) := by
  refine ⟨?_, ?_, ?_⟩
  · intro cfg env trade rec h
    obtain ⟨q, info, s, qty, r, _, _, _, _, _, hrec⟩ :=
      hedgeTrade_ok_inversion cfg env trade rec h
    subst hrec
    exact ⟨rfl, rfl, rfl, rfl⟩
  · intro env ledger x hx
    unfold CheckAllActiveOrders GetHedgedTrades at hx
    simp only at hx
    obtain ⟨t, ht, rfl⟩ := List.mem_map.mp hx
    have := (List.mem_filter.mp ht).2
    have hgo : t.OrderStatus.toGoString = "PENDING" := of_decide_eq_true this
    cases hst : t.OrderStatus <;>
      simp [OrderStatus.toGoString, hst] at hgo ⊢
  · intro cenv t args res hpend hcp0 hct0 hstep
    unfold checkSingleOrderStatus at hstep
    cases hfetch : cenv.statusOf t.BybitOrderID with
    | none => rw [hfetch] at hstep; simp at hstep
    | some si =>
      rw [hfetch] at hstep
      simp only at hstep
      by_cases hsame : si.Status = t.OrderStatus
      · rw [if_pos hsame] at hstep
        simp only [Prod.mk.injEq, Option.some.injEq] at hstep
        obtain ⟨hargs, _⟩ := hstep
        subst hargs
        refine ⟨Nat.le_refl _, fun _ => ⟨rfl, rfl⟩, ?_, ?_⟩
        · intro hcp
          exact absurd hcp0 hcp
        · intro hct
          exact absurd hct0 hct
      · rw [if_neg hsame] at hstep
        simp only [Prod.mk.injEq, Option.some.injEq] at hstep
        obtain ⟨hargs, _⟩ := hstep
        subst hargs
        refine ⟨by rw [hpend]; exact Nat.zero_le _,
          fun heq => absurd heq hsame, ?_, ?_⟩
        · intro hcp
          by_cases hf : si.Status = .filled
          · exact hf
          · simp [hf] at hcp
        · intro hct
          by_cases hf : si.Status = .filled
          · simp [hf, OrderStatus.IsCompleted]
          · by_cases hcomp : si.Status.IsCompleted = true
            · exact hcomp
            · simp [hf, hcomp] at hct

/-- Witness for `c8_lifecycle`: creation via the scenario hedge yields a
PENDING record with nil close fields, and reconciling `pendingRec`
against a venue that reports FILLED at 52100 produces the terminal
update carrying the close price and time atomically. -/
theorem c8_lifecycle_witness :
    (scenarioRec.OrderStatus = .pending ∧
      scenarioRec.OrderStatus.IsCompleted = false ∧
      scenarioRec.ClosePrice = none ∧ scenarioRec.CloseTime = none) ∧
    checkSingleOrderStatus filledCheckEnv pendingRec =
      (some { orderID := "SELL10", status := .filled,
              closePrice := some 52100, closeTime := some 1700000400 },
        .ok true) ∧
    statusRank pendingRec.OrderStatus ≤ statusRank OrderStatus.filled := by
  have hrun : hedgeTrade scenarioCfg happyEnv scenarioTrade = .ok scenarioRec := by
    decide
  have hstep : checkSingleOrderStatus filledCheckEnv pendingRec =
      (some { orderID := "SELL10", status := .filled,
              closePrice := some 52100, closeTime := some 1700000400 },
        .ok true) := by decide
  refine ⟨c8_lifecycle.1 scenarioCfg happyEnv scenarioTrade scenarioRec hrun,
    hstep, ?_⟩
  exact (c8_lifecycle.2.2 filledCheckEnv pendingRec
    { orderID := "SELL10", status := .filled,
      closePrice := some 52100, closeTime := some 1700000400 }
    (.ok true) rfl rfl rfl hstep).1

end TradeHedge
